import Mathlib

/-!
Shallow embedding of the clockin time-tracking core (TypeScript sources:
base-leave-manager.ts, vacation-manager.ts, sick-manager.ts, time-tracker.ts,
date-utils.ts, summary-manager segment of date-utils.ts, holiday-manager).

Modelling conventions:
- Calendar dates are day indices (Nat); the weekday of day d is d % 7,
  with 0 standing for Monday (dayjs weekday names are encoded as numbers).
- Millisecond timestamps are Rat; day bucketing of a timestamp ms is
  floor (ms / 86400000) (the timezone conversion is an external collaborator
  and amounts to a fixed additive offset, which the claims do not depend on).
- Datetime strings that may be unparsable are Option Rat (none = invalid)
  or the TimeStr type where the invalid case must be distinguished.
- Record ids and free-text descriptions are generated from randomness or
  passed through verbatim; they are omitted from the model since no claim
  constrains them.
- The CSV stores are lists; DataManager.saveXEntry appends one record
  (csv-writer with append: fileExists), rewriteHolidayEntries replaces the
  holiday list.
-/

namespace Clockin

/-- One record of Config.workingDays: a weekday name with its flag. -/
structure WorkingDay where
  day : Nat
  isWorkingDay : Bool
deriving DecidableEq, Repr

/-- The Config record (loadConfig): fields the core logic reads. -/
structure Config where
  hoursPerWeek : Rat
  vacationDaysPerYear : Rat
  workingDays : List WorkingDay
  startDate : Option Nat
deriving DecidableEq

/-- A TimeEntry row: date is the day index of the date string; startTime and
endTime are parsed timestamps (none = missing or unparsable); pauseTime is in
minutes. -/
structure TimeEntry where
  date : Nat
  startTime : Option Rat
  endTime : Option Rat
  pauseTime : Rat
deriving DecidableEq, Repr

/-- A VacationEntry or SickEntry row (both have the same shape). -/
structure LeaveEntry where
  startDate : Nat
  endDate : Nat
  days : Rat
deriving DecidableEq, Repr

/-- A HolidayEntry row. -/
structure HolidayEntry where
  date : Nat
  name : String
  country : String
  region : String
deriving DecidableEq, Repr

/-- The four flat entry stores of the data directory. -/
structure Store where
  timeEntries : List TimeEntry
  vacationEntries : List LeaveEntry
  sickEntries : List LeaveEntry
  holidayEntries : List HolidayEntry
deriving DecidableEq, Repr

/-- dayjs(date).format(interpolated weekday) encoded as a number: d % 7. -/
def weekdayOf (d : Nat) : Nat := d % 7

/-- BaseLeaveManager.isWorkingDay: find the workingDays record whose day name
matches, then its flag, defaulting to false. -/
def isWorkingDayFind (c : Config) (d : Nat) : Bool :=
  match c.workingDays.find? (fun w => w.day == weekdayOf d) with
  | some w => w.isWorkingDay
  | none => false

/-- The workingDayNames set built in SummaryManager (filter isWorkingDay, map
day name, test membership). -/
def isWorkingDayName (c : Config) (d : Nat) : Bool :=
  ((c.workingDays.filter (·.isWorkingDay)).map (·.day)).contains (weekdayOf d)

/-- getWorkingDaysCount / the workingDaysCount filter-length used throughout. -/
def workingDaysCount (c : Config) : Nat :=
  (c.workingDays.filter (·.isWorkingDay)).length

/-- The inclusive list of day indices from s to e (empty when e < s); this is
the set of days a while-loop `while cursor <= end` visits. -/
def dayRange (s e : Nat) : List Nat :=
  (List.range (e + 1 - s)).map (s + ·)

/-- date-utils calculateWorkingTime: 0 when either timestamp is invalid or the
difference minus the pause is not positive. -/
def calculateWorkingTime (startTime endTime : Option Rat) (pauseTimeMinutes : Rat) : Rat :=
  match startTime, endTime with
  | some s, some e =>
    let workingMs := e - s - pauseTimeMinutes * 60000
    if 0 < workingMs then workingMs else 0
  | _, _ => 0

/-- The overlap test of BaseLeaveManager.findOverlappingDates: the target day
equals the span start, equals the span end, or lies strictly between them
(day granularity). -/
def overlapsLeave (t : Nat) (e : LeaveEntry) : Bool :=
  t == e.startDate || t == e.endDate || (e.startDate < t && t < e.endDate)

/-- BaseLeaveManager.findOverlappingDates: for each target in order, scan the
entries and keep the target on the first match (the inner break is List.any). -/
def findOverlappingDates (targets : List Nat) (entries : List LeaveEntry) : List Nat :=
  match targets with
  | [] => []
  | t :: ts =>
    if entries.any (overlapsLeave t) then t :: findOverlappingDates ts entries
    else findOverlappingDates ts entries

/-- BaseLeaveManager.checkAndReportTimeEntryOverlap: the target dates filtered
to those for which some time entry has the same date. -/
def timeEntryConflicts (targets : List Nat) (tes : List TimeEntry) : List Nat :=
  targets.filter (fun t => tes.any (fun e => e.date == t))

/-- Which of the three mandatory pre-persist checks reported the conflict. -/
inductive ConflictKind
  | opposite
  | self
  | timeEntry
deriving DecidableEq, Repr

/-- Outcome of a leave-addition command (each variant is one early-return
branch of the TypeScript method). -/
inductive AddOutcome
  | added
  | invalidDays
  | nonIntegerDays
  | noWorkingDay
  | notEnoughWorkingDays
  | conflict (k : ConflictKind)
  | startAfterEnd
  | emptyRange
deriving DecidableEq, Repr

/-- Result of a leave-addition command: the stores after the call plus the
branch taken. -/
structure OpResult where
  store : Store
  outcome : AddOutcome
deriving DecidableEq, Repr

/-- The loop body of BaseLeaveManager.findNextWorkingDay: for up to i more
iterations, return the cursor if it is a working day, else advance one day. -/
def findNextWorkingDayGo (c : Config) : Nat → Nat → Option Nat
  | _, 0 => none
  | cursor, i + 1 =>
    if isWorkingDayFind c cursor then some cursor
    else findNextWorkingDayGo c (cursor + 1) i

/-- BaseLeaveManager.findNextWorkingDay: 14-day lookahead from the date. -/
def findNextWorkingDay (c : Config) (d : Nat) : Option Nat :=
  findNextWorkingDayGo c d 14

/-- The collection loop of VacationManager.addVacation: while fewer than the
requested number of working days are collected and the cursor is within the
lookahead window (fuel counts the remaining days the loop may examine; it
starts at 366 because the loop runs while cursor.diff(first) <= 365), push the
cursor when it is a working day, then advance it one day. -/
def collectWorkingDays (c : Config) : Nat → Nat → Nat → List Nat
  | _, _, 0 => []
  | _, 0, _ + 1 => []
  | cursor, fuel + 1, need + 1 =>
    if isWorkingDayFind c cursor then
      cursor :: collectWorkingDays c (cursor + 1) fuel need
    else
      collectWorkingDays c (cursor + 1) fuel (need + 1)

/-- The candidate working-day dates addVacation validates, as a function of the
inputs (empty when no starting working day is found). -/
def vacationCandidateDates (c : Config) (days : Rat) (startDate : Nat) : List Nat :=
  match findNextWorkingDay c startDate with
  | none => []
  | some first => collectWorkingDays c first 366 days.num.toNat

/-- VacationManager.addVacation (canonical BaseLeaveManager-derived version):
validates days, resolves the first working day (14-day lookahead), collects
exactly the requested number of working days (365-day cap), runs the three
overlap checks in order (sick, own vacation, time entries), then persists one
VacationEntry spanning the collected dates. -/
def addVacation (c : Config) (store : Store) (days : Rat) (startDate : Nat) : OpResult :=
  if days ≤ 0 then ⟨store, .invalidDays⟩
  else if !days.isInt then ⟨store, .nonIntegerDays⟩
  else
    let requestedDays := days.num.toNat
    match findNextWorkingDay c startDate with
    | none => ⟨store, .noWorkingDay⟩
    | some first =>
      let workingDayDates := collectWorkingDays c first 366 requestedDays
      if workingDayDates.length < requestedDays then ⟨store, .notEnoughWorkingDays⟩
      else if findOverlappingDates workingDayDates store.sickEntries ≠ [] then
        ⟨store, .conflict .opposite⟩
      else if findOverlappingDates workingDayDates store.vacationEntries ≠ [] then
        ⟨store, .conflict .self⟩
      else if timeEntryConflicts workingDayDates store.timeEntries ≠ [] then
        ⟨store, .conflict .timeEntry⟩
      else
        let entry : LeaveEntry :=
          ⟨workingDayDates.headD 0, workingDayDates.getLastD 0, (requestedDays : Rat)⟩
        ⟨{ store with vacationEntries := store.vacationEntries ++ [entry] }, .added⟩

/-- BaseLeaveManager.calculateWorkingDaysInRange: the working days among the
inclusive day range. -/
def calculateWorkingDaysInRange (c : Config) (s e : Nat) : List Nat :=
  (dayRange s e).filter (isWorkingDayFind c)

/-- VacationManager.addVacationRange: rejects start > end, warns and aborts on
zero working days, runs the three checks in order, then persists one
VacationEntry whose bounds are the caller's requested range and whose days
field is the working-day count. -/
def addVacationRange (c : Config) (store : Store) (startDate endDate : Nat) : OpResult :=
  if endDate < startDate then ⟨store, .startAfterEnd⟩
  else
    let workingDays := calculateWorkingDaysInRange c startDate endDate
    if workingDays = [] then ⟨store, .emptyRange⟩
    else if findOverlappingDates workingDays store.sickEntries ≠ [] then
      ⟨store, .conflict .opposite⟩
    else if findOverlappingDates workingDays store.vacationEntries ≠ [] then
      ⟨store, .conflict .self⟩
    else if timeEntryConflicts workingDays store.timeEntries ≠ [] then
      ⟨store, .conflict .timeEntry⟩
    else
      let entry : LeaveEntry := ⟨startDate, endDate, (workingDays.length : Rat)⟩
      ⟨{ store with vacationEntries := store.vacationEntries ++ [entry] }, .added⟩

/-- The consecutive calendar dates addSickDays covers. -/
def sickCandidateDates (days : Rat) (startDate : Nat) : List Nat :=
  (List.range days.num.toNat).map (startDate + ·)

/-- SickManager.addSickDays: validates days, builds the requested number of
consecutive calendar dates from the (day-normalized) start, runs the three
checks in order (vacation, own sick, time entries), then persists one
SickEntry. -/
def addSickDays (c : Config) (store : Store) (days : Rat) (startDate : Nat) : OpResult :=
  if days ≤ 0 then ⟨store, .invalidDays⟩
  else if !days.isInt then ⟨store, .nonIntegerDays⟩
  else
    let sickDayDates := sickCandidateDates days startDate
    if findOverlappingDates sickDayDates store.vacationEntries ≠ [] then
      ⟨store, .conflict .opposite⟩
    else if findOverlappingDates sickDayDates store.sickEntries ≠ [] then
      ⟨store, .conflict .self⟩
    else if timeEntryConflicts sickDayDates store.timeEntries ≠ [] then
      ⟨store, .conflict .timeEntry⟩
    else
      let entry : LeaveEntry :=
        ⟨sickDayDates.headD 0, sickDayDates.getLastD 0, (days.num.toNat : Rat)⟩
      ⟨{ store with sickEntries := store.sickEntries ++ [entry] }, .added⟩

/-- A datetime string as the session file stores it: either unparsable or a
parsed millisecond timestamp. -/
inductive TimeStr
  | invalid
  | valid (ms : Rat)
deriving DecidableEq, Repr

/-- The WorkSession record persisted to current-session.json. -/
structure WorkSession where
  startTime : Rat
  pausedTime : Rat
  isPaused : Bool
  pauseStartTime : Option TimeStr
deriving DecidableEq, Repr

/-- date-utils getPauseDurationMs: 0 when pauseStartTime does not parse,
otherwise now minus pauseStartTime (which is negative when pauseStartTime lies
in the future). -/
def getPauseDurationMs (now : Rat) : TimeStr → Rat
  | .invalid => 0
  | .valid t => now - t

/-- date-utils calculateCurrentPausedTimeMs: the accumulated pausedTime plus,
when the session is paused and has a pauseStartTime, the open pause duration. -/
def calculateCurrentPausedTimeMs (s : WorkSession) (now : Rat) : Rat :=
  s.pausedTime +
    match s.isPaused, s.pauseStartTime with
    | true, some ps => getPauseDurationMs now ps
    | _, _ => 0

/-- JavaScript Math.round for the values this code feeds it: floor (x + 1/2). -/
def jsRound (x : Rat) : Int := ⌊x + (1 : Rat) / 2⌋

/-- TimeTracker.getRegularDailyMinutes: 0 when no weekday is a working day,
else round (hoursPerWeek / workingDays * 60). -/
def getRegularDailyMinutes (c : Config) : Int :=
  let workingDays := workingDaysCount c
  if workingDays ≤ 0 then 0
  else jsRound (c.hoursPerWeek / (workingDays : Rat) * 60)

/-- TimeTracker.getSuggestedPauseMinutesForSession:
max (0, floor (totalWorkMinutes - regularDailyMinutes)). -/
def getSuggestedPauseMinutesForSession (c : Config) (totalWorkMinutes : Rat) : Int :=
  max 0 ⌊totalWorkMinutes - (getRegularDailyMinutes c : Rat)⌋

/-- The day bucket of a millisecond timestamp (formatInTz to YYYY-MM-DD,
modeled as the UTC day; the timezone offset is a fixed shift the claims do not
depend on). -/
def dayOfMs (ms : Rat) : Nat := (⌊ms / 86400000⌋).toNat

/-- Outcome of TimeTracker.startTracking. -/
inductive StartOutcome
  | started
  | sessionActive
  | vacationToday
  | sickToday
deriving DecidableEq, Repr

/-- Result of startTracking: the session file afterwards plus the branch taken
(startTracking never writes any entry store). -/
structure StartResult where
  session : Option WorkSession
  outcome : StartOutcome
deriving DecidableEq, Repr

/-- TimeTracker.startTracking: fails when a session exists or when a vacation
or sick entry covers today; otherwise creates the session record. It never
consults the existing time entries. -/
def startTracking (store : Store) (session : Option WorkSession) (now : Rat) : StartResult :=
  match session with
  | some s => ⟨some s, .sessionActive⟩
  | none =>
    let today := dayOfMs now
    if store.vacationEntries.any (overlapsLeave today) then ⟨none, .vacationToday⟩
    else if store.sickEntries.any (overlapsLeave today) then ⟨none, .sickToday⟩
    else ⟨some ⟨now, 0, false, none⟩, .started⟩

/-- Outcome of TimeTracker.stopTracking. -/
inductive StopOutcome
  | stopped
  | noSession
deriving DecidableEq, Repr

/-- Result of stopTracking: stores and session afterwards, the branch taken,
and whether the pause-confirmation prompt was shown. -/
structure StopResult where
  store : Store
  session : Option WorkSession
  outcome : StopOutcome
  prompted : Bool
deriving DecidableEq, Repr

/-- TimeTracker.stopTracking (canonical version with the pause suggestion):
folds any open pause, computes the gross worked minutes, suggests a pause, and
prompts only when the suggestion is positive and exceeds the tracked pause;
the confirmed suggestion replaces the tracked pause. The resulting TimeEntry
is appended without checking for an existing entry on the same date, and the
session file is deleted. applyPause is the external prompt collaborator's
answer. -/
def stopTracking (c : Config) (store : Store) (session : Option WorkSession)
    (now : Rat) (applyPause : Bool) : StopResult :=
  match session with
  | none => ⟨store, none, .noSession, false⟩
  | some s =>
    let totalPausedTimeMs := calculateCurrentPausedTimeMs s now
    let pauseTime := totalPausedTimeMs / 60000
    let grossMs := calculateWorkingTime (some s.startTime) (some now) 0
    let grossMinutes := grossMs / 60000
    let suggestedPauseMinutes := getSuggestedPauseMinutesForSession c grossMinutes
    let prompted : Bool :=
      decide (0 < suggestedPauseMinutes) && decide (pauseTime < (suggestedPauseMinutes : Rat))
    let finalPause : Rat :=
      if prompted && applyPause then (suggestedPauseMinutes : Rat) else pauseTime
    let entry : TimeEntry := ⟨dayOfMs s.startTime, some s.startTime, some now, finalPause⟩
    ⟨{ store with timeEntries := store.timeEntries ++ [entry] }, none, .stopped, prompted⟩

/-- Outcome of TimeTracker.addTimeEntry (manual entry with validation). -/
inductive AddTimeOutcome
  | added
  | negativePause
  | futureDate
  | endNotAfterStart
  | tooLong
  | notLongerThanPause
  | timeEntryConflict
  | vacationConflict
  | sickConflict
deriving DecidableEq, Repr

/-- Result of addTimeEntry. -/
structure AddTimeResult where
  store : Store
  outcome : AddTimeOutcome
deriving DecidableEq, Repr

/-- TimeTracker.addTimeEntry: the date is a day index and the two clock times
are minute offsets within that day (combineDateAndTime); format validation of
the date and HH:MM strings is intrinsic to the model. Checks run in source
order: negative pause, future date, end after start, under 24h, longer than
the pause, then conflicts with existing time entries, vacation, sick; on
success the entry is appended. -/
def addTimeEntry (store : Store) (dateDay : Nat) (startMin endMin : Rat)
    (pauseTimeMinutes : Rat) (todayDay : Nat) : AddTimeResult :=
  if pauseTimeMinutes < 0 then ⟨store, .negativePause⟩
  else if todayDay < dateDay then ⟨store, .futureDate⟩
  else
    let startTimeISO : Rat := (dateDay : Rat) * 86400000 + startMin * 60000
    let endTimeISO : Rat := (dateDay : Rat) * 86400000 + endMin * 60000
    if ¬ startTimeISO < endTimeISO then ⟨store, .endNotAfterStart⟩
    else
      let totalDurationMs := calculateWorkingTime (some startTimeISO) (some endTimeISO) pauseTimeMinutes
      let totalHours := totalDurationMs / 3600000
      if 24 ≤ totalHours then ⟨store, .tooLong⟩
      else if totalHours ≤ 0 then ⟨store, .notLongerThanPause⟩
      else if store.timeEntries.any (fun e => e.date == dateDay) then
        ⟨store, .timeEntryConflict⟩
      else if store.vacationEntries.any (overlapsLeave dateDay) then
        ⟨store, .vacationConflict⟩
      else if store.sickEntries.any (overlapsLeave dateDay) then
        ⟨store, .sickConflict⟩
      else
        let entry : TimeEntry := ⟨dateDay, some startTimeISO, some endTimeISO, pauseTimeMinutes⟩
        ⟨{ store with timeEntries := store.timeEntries ++ [entry] }, .added⟩

/-- VacationManager.getTotalVacationDays: reduce summing entry.days. -/
def getTotalVacationDays (ves : List LeaveEntry) : Rat :=
  (ves.map (·.days)).sum

/-- SickManager.getTotalSickDays: reduce summing entry.days. -/
def getTotalSickDays (ses : List LeaveEntry) : Rat :=
  (ses.map (·.days)).sum

/-- SummaryManager.calculateWorkingHoursPerDay: hoursPerWeek / workingDaysCount,
or 0 when no weekday is a working day. -/
def calculateWorkingHoursPerDay (c : Config) : Rat :=
  let workingDays := workingDaysCount c
  if 0 < workingDays then c.hoursPerWeek / (workingDays : Rat) else 0

/-- The employment baseline day of calculateSummaryData: config.startDate, else
the earliest time-entry date (sort ascending, take the first), else today. -/
def employmentStartDay (c : Config) (tes : List TimeEntry) (nowDay : Nat) : Nat :=
  match c.startDate with
  | some d => d
  | none => ((tes.map (·.date)).min?).getD nowDay

/-- The per-entry summand of calculateSummaryData's time-entry loop: entries
without an endTime are skipped, the rest contribute their working time. -/
def closedWorkingMs (e : TimeEntry) : Rat :=
  match e.endTime with
  | none => 0
  | some _ => calculateWorkingTime e.startTime e.endTime e.pauseTime

/-- The total the time-entry loop of calculateSummaryData accumulates. -/
def sumClosedWorkingMs (tes : List TimeEntry) : Rat :=
  (tes.map closedWorkingMs).sum

/-- The leaveDateKeys set of calculateSummaryData: every day covered by a
vacation span, then every day covered by a sick span. -/
def leaveDays (ves ses : List LeaveEntry) : List Nat :=
  (ves.map (fun e => dayRange e.startDate e.endDate)).flatten ++
    (ses.map (fun e => dayRange e.startDate e.endDate)).flatten

/-- HolidayManager.getHolidayDates: the dates of the stored holiday entries
that lie in the inclusive range. -/
def getHolidayDates (hs : List HolidayEntry) (startDay endDay : Nat) : List Nat :=
  (hs.map (·.date)).filter (fun d => startDay ≤ d && d ≤ endDay)

/-- The workingHolidays filter of calculateSummaryData: the stored holiday
dates between the baseline and today that fall on a configured working weekday
and do not coincide with a vacation or sick day. -/
def workingHolidayDates (c : Config) (store : Store) (baseDay nowDay : Nat) : List Nat :=
  let leaveDateKeys := leaveDays store.vacationEntries store.sickEntries
  (getHolidayDates store.holidayEntries baseDay nowDay).filter
    (fun d => isWorkingDayName c d && !(leaveDateKeys.contains d))

/-- The SummaryData record (the fields the overall summary reports; the
current-week figure and display strings are rendering concerns omitted here). -/
structure SummaryData where
  totalHoursWorked : Rat
  totalVacationDays : Rat
  totalSickDays : Rat
  remainingVacationDays : Rat
  expectedHoursPerWeek : Rat
  overtimeHours : Rat
  startDay : Nat
  endDay : Nat
deriving DecidableEq, Repr

/-- SummaryManager.calculateSummaryData (canonical version with sick days and
holidays): baseline day, fractional elapsed weeks, expected hours, the sum of
closed time entries, plus vacation, sick and non-double-counted working
holidays at full daily hours; overtime is the signed difference. -/
def calculateSummaryData (c : Config) (store : Store) (nowDay : Nat) : SummaryData :=
  let employmentStart := employmentStartDay c store.timeEntries nowDay
  let elapsedWeeks : Rat := ((nowDay : Rat) - (employmentStart : Rat)) / 7
  let expectedTotalHours := elapsedWeeks * c.hoursPerWeek
  let entriesMs := sumClosedWorkingMs store.timeEntries
  let workingHoursPerDayMs := calculateWorkingHoursPerDay c * 3600000
  let totalVacationDays := getTotalVacationDays store.vacationEntries
  let totalSickDays := getTotalSickDays store.sickEntries
  let workingHolidays := workingHolidayDates c store employmentStart nowDay
  let totalHoursWorked :=
    entriesMs + totalVacationDays * workingHoursPerDayMs +
      totalSickDays * workingHoursPerDayMs +
      (workingHolidays.length : Rat) * workingHoursPerDayMs
  let remainingVacationDays := max 0 (c.vacationDaysPerYear - totalVacationDays)
  let totalWorkedHours := totalHoursWorked / 3600000
  let overtimeHours := (totalWorkedHours - expectedTotalHours) * 3600000
  ⟨totalHoursWorked, totalVacationDays, totalSickDays, remainingVacationDays,
    c.hoursPerWeek, overtimeHours, employmentStart, nowDay⟩

/-- A raw holiday definition from the external date-holidays collaborator. -/
structure RawHoliday where
  date : Nat
  name : String
  type : String
  substitute : Bool
deriving DecidableEq, Repr

/-- The WORK_FREE_HOLIDAY_TYPES allow-list. -/
def workFreeHolidayTypes : List String := ["public", "bank"]

/-- The comparator fetchHolidays sorts with: by date, then by name. -/
def holidayLE (a b : HolidayEntry) : Bool :=
  if a.date = b.date then decide (a.name ≤ b.name) else decide (a.date ≤ b.date)

/-- Stable insertion for the sort below. -/
def insertHolidayBy (x : HolidayEntry) : List HolidayEntry → List HolidayEntry
  | [] => [x]
  | y :: ys => if holidayLE x y then x :: y :: ys else y :: insertHolidayBy x ys

/-- The stable sort of fetchHolidays (Array.prototype.sort with a total
comparator; ties only arise for entries the de-dup already removed). -/
def sortHolidays : List HolidayEntry → List HolidayEntry
  | [] => []
  | x :: xs => insertHolidayBy x (sortHolidays xs)

/-- The seen-set de-duplication of fetchHolidays: keep the first entry for each
(date, name) pair. -/
def dedupByDateName : List HolidayEntry → List (Nat × String) → List HolidayEntry
  | [], _ => []
  | e :: es, seen =>
    if seen.contains (e.date, e.name) then dedupByDateName es seen
    else e :: dedupByDateName es ((e.date, e.name) :: seen)

/-- The processing fetchHolidays applies to the raw definitions: keep work-free
types that are not substitutes (date normalization and validity are intrinsic
to the day-index model), attach the tuple, de-duplicate by (date, name), sort
by (date, name). The deterministic hash id is omitted from the model. -/
def processRawHolidays (country region : String) (raws : List RawHoliday) : List HolidayEntry :=
  let entries := (raws.filter
      (fun h => workFreeHolidayTypes.contains h.type && !h.substitute)).map
    (fun h => ({ date := h.date, name := h.name, country := country, region := region } : HolidayEntry))
  sortHolidays (dedupByDateName entries [])

/-- Outcome of HolidayManager.initHolidays. -/
inductive InitOutcome
  | imported (n : Nat)
  | alreadyInitialized
  | noHolidaysFound
deriving DecidableEq, Repr

/-- Result of initHolidays. -/
structure InitResult where
  store : Store
  outcome : InitOutcome
deriving DecidableEq, Repr

/-- The existing-entry filter of initHolidays: same country and region, and the
date string starts with the target year (yearOf models the YYYY prefix of the
canonical date format of a day index). -/
def matchesHolidayTuple (yearOf : Nat → Nat) (year : Nat) (country region : String)
    (h : HolidayEntry) : Bool :=
  h.country == country && h.region == region && yearOf h.date == year

/-- HolidayManager.initHolidays: no-op when matching entries exist and force is
false; when forcing, first rewrite the store without them; then fetch (the raw
list is the external collaborator's response; an empty response throws, after
any removal already persisted), process, and append each resulting entry. -/
def initHolidays (yearOf : Nat → Nat) (store : Store) (year : Nat)
    (country region : String) (force : Bool) (raws : List RawHoliday) : InitResult :=
  let existingForYear :=
    store.holidayEntries.filter (matchesHolidayTuple yearOf year country region)
  if decide (0 < existingForYear.length) && !force then ⟨store, .alreadyInitialized⟩
  else
    let keep := fun h => !(matchesHolidayTuple yearOf year country region h)
    let store1 :=
      if force && decide (0 < existingForYear.length) then
        { store with holidayEntries := store.holidayEntries.filter keep }
      else store
    if raws = [] then ⟨store1, .noHolidaysFound⟩
    else
      let holidays := processRawHolidays country region raws
      ⟨{ store1 with holidayEntries := store1.holidayEntries ++ holidays },
        .imported holidays.length⟩

/-! Helper lemmas about the embedded operations. -/

theorem list_ne_nil_iff_exists_mem {α : Type} (l : List α) : l ≠ [] ↔ ∃ x, x ∈ l := by
  cases l <;> simp

theorem findOverlappingDates_eq_filter (ts : List Nat) (es : List LeaveEntry) :
    findOverlappingDates ts es = ts.filter (fun t => es.any (overlapsLeave t)) := by
  induction ts with
  | nil => rfl
  | cons t ts ih =>
    simp only [findOverlappingDates, List.filter_cons]
    by_cases h : es.any (overlapsLeave t) <;> simp [h, ih]

theorem mem_findOverlappingDates (t : Nat) (ts : List Nat) (es : List LeaveEntry) :
    t ∈ findOverlappingDates ts es ↔ t ∈ ts ∧ ∃ e ∈ es, overlapsLeave t e = true := by
  rw [findOverlappingDates_eq_filter, List.mem_filter]
  simp [List.any_eq_true]

theorem findOverlappingDates_ne_nil_iff (ts : List Nat) (es : List LeaveEntry) :
    findOverlappingDates ts es ≠ [] ↔ ∃ t ∈ ts, ∃ e ∈ es, overlapsLeave t e = true := by
  rw [list_ne_nil_iff_exists_mem]
  constructor
  · rintro ⟨t, ht⟩
    rw [mem_findOverlappingDates] at ht
    exact ⟨t, ht.1, ht.2⟩
  · rintro ⟨t, ht, he⟩
    exact ⟨t, (mem_findOverlappingDates t ts es).mpr ⟨ht, he⟩⟩

theorem timeEntryConflicts_ne_nil_iff (ts : List Nat) (tes : List TimeEntry) :
    timeEntryConflicts ts tes ≠ [] ↔ ∃ t ∈ ts, ∃ e ∈ tes, e.date = t := by
  rw [list_ne_nil_iff_exists_mem]
  unfold timeEntryConflicts
  constructor
  · rintro ⟨t, ht⟩
    rw [List.mem_filter] at ht
    obtain ⟨ht1, ht2⟩ := ht
    rw [List.any_eq_true] at ht2
    obtain ⟨e, he, hd⟩ := ht2
    exact ⟨t, ht1, e, he, by simpa using hd⟩
  · rintro ⟨t, ht, e, he, hd⟩
    refine ⟨t, List.mem_filter.mpr ⟨ht, List.any_eq_true.mpr ⟨e, he, by simpa using hd⟩⟩⟩

theorem dayRange_eq_nil (s e : Nat) (h : e < s) : dayRange s e = [] := by
  have : e + 1 - s = 0 := by omega
  simp [dayRange, this]

theorem dayRange_eq_cons (s e : Nat) (h : s ≤ e) : dayRange s e = s :: dayRange (s + 1) e := by
  unfold dayRange
  have h1 : e + 1 - s = (e - s) + 1 := by omega
  have h2 : e + 1 - (s + 1) = e - s := by omega
  rw [h1, h2, List.range_succ_eq_map]
  simp only [List.map_cons, List.map_map, Nat.add_zero]
  refine congrArg (s :: ·) (congrFun (congrArg _ ?_) _)
  funext x
  simp [Function.comp]
  omega

theorem dayRange_singleton (s : Nat) : dayRange s s = [s] := by
  rw [dayRange_eq_cons s s (le_refl s), dayRange_eq_nil (s + 1) s (by omega)]

theorem mem_dayRange (d s e : Nat) : d ∈ dayRange s e ↔ s ≤ d ∧ d ≤ e := by
  unfold dayRange
  simp only [List.mem_map, List.mem_range]
  constructor
  · rintro ⟨x, hx, rfl⟩
    omega
  · rintro ⟨h1, h2⟩
    exact ⟨d - s, by omega, by omega⟩

theorem findNextWorkingDayGo_spec (c : Config) :
    ∀ i cursor w, findNextWorkingDayGo c cursor i = some w →
      isWorkingDayFind c w = true ∧ cursor ≤ w ∧ w < cursor + i ∧
        ∀ x, cursor ≤ x → x < w → isWorkingDayFind c x = false := by
  intro i
  induction i with
  | zero => intro cursor w h; simp [findNextWorkingDayGo] at h
  | succ i ih =>
    intro cursor w h
    simp only [findNextWorkingDayGo] at h
    by_cases hw : isWorkingDayFind c cursor
    · rw [if_pos hw] at h
      cases h
      exact ⟨hw, le_refl _, by omega, fun x hx1 hx2 => by omega⟩
    · rw [if_neg hw] at h
      obtain ⟨h1, h2, h3, h4⟩ := ih (cursor + 1) w h
      refine ⟨h1, by omega, by omega, fun x hx1 hx2 => ?_⟩
      rcases Nat.eq_or_lt_of_le hx1 with heq | hlt
      · rw [← heq]
        exact Bool.eq_false_iff.mpr hw
      · exact h4 x (by omega) hx2

theorem collectWorkingDays_zero (c : Config) (cursor fuel : Nat) :
    collectWorkingDays c cursor fuel 0 = [] := by
  cases fuel <;> rfl

theorem collectWorkingDays_length_le (c : Config) :
    ∀ fuel cursor need, (collectWorkingDays c cursor fuel need).length ≤ need := by
  intro fuel
  induction fuel with
  | zero =>
    intro cursor need
    cases need <;> simp [collectWorkingDays]
  | succ f ih =>
    intro cursor need
    cases need with
    | zero => simp [collectWorkingDays]
    | succ n =>
      simp only [collectWorkingDays]
      by_cases h : isWorkingDayFind c cursor
      · rw [if_pos h]
        simpa using ih (cursor + 1) n
      · rw [if_neg h]
        exact ih (cursor + 1) (n + 1)

theorem collectWorkingDays_spec (c : Config) :
    ∀ fuel cursor need, 0 < need →
      (collectWorkingDays c cursor fuel need).length = need →
      ∃ b, (collectWorkingDays c cursor fuel need).getLast? = some b ∧
        cursor ≤ b ∧
        (dayRange cursor b).filter (isWorkingDayFind c) =
          collectWorkingDays c cursor fuel need := by
  intro fuel
  induction fuel with
  | zero =>
    intro cursor need hpos hlen
    cases need with
    | zero => omega
    | succ n => simp [collectWorkingDays] at hlen
  | succ f ih =>
    intro cursor need hpos hlen
    cases need with
    | zero => omega
    | succ n =>
      simp only [collectWorkingDays] at hlen ⊢
      by_cases hw : isWorkingDayFind c cursor
      · rw [if_pos hw] at hlen ⊢
        cases n with
        | zero =>
          rw [collectWorkingDays_zero]
          exact ⟨cursor, by simp, le_refl _, by rw [dayRange_singleton]; simp [hw]⟩
        | succ m =>
          have hlen2 : (collectWorkingDays c (cursor + 1) f (m + 1)).length = m + 1 := by
            simpa using hlen
          obtain ⟨b, hb1, hb2, hb3⟩ := ih (cursor + 1) (m + 1) (by omega) hlen2
          have hne : collectWorkingDays c (cursor + 1) f (m + 1) ≠ [] := by
            intro hnil; rw [hnil] at hlen2; simp at hlen2
          refine ⟨b, ?_, by omega, ?_⟩
          · rw [List.getLast?_cons, hb1]
            simp [hne]
          · rw [dayRange_eq_cons cursor b (by omega), List.filter_cons, if_pos hw, hb3]
      · rw [if_neg hw] at hlen ⊢
        obtain ⟨b, hb1, hb2, hb3⟩ := ih (cursor + 1) (n + 1) (by omega) hlen
        refine ⟨b, hb1, by omega, ?_⟩
        rw [dayRange_eq_cons cursor b (by omega), List.filter_cons, if_neg (by simp [hw]), hb3]

/-- A Monday-to-Friday, 40h working configuration used in concrete instances
(weekday 0 is Monday, so 5 and 6 are the weekend). -/
def mondayToFridayConfig : Config :=
  { hoursPerWeek := 40, vacationDaysPerYear := 30,
    workingDays := [⟨0, true⟩, ⟨1, true⟩, ⟨2, true⟩, ⟨3, true⟩, ⟨4, true⟩, ⟨5, false⟩, ⟨6, false⟩],
    startDate := some 0 }

/-- A configuration in which no weekday is a working day. -/
def noWorkingDaysConfig : Config :=
  { hoursPerWeek := 40, vacationDaysPerYear := 30,
    workingDays := [⟨0, false⟩, ⟨1, false⟩, ⟨2, false⟩, ⟨3, false⟩, ⟨4, false⟩, ⟨5, false⟩, ⟨6, false⟩],
    startDate := some 0 }

/-- The empty data directory. -/
def emptyStore : Store := ⟨[], [], [], []⟩

theorem sickCandidateDates_natCast (n s : Nat) :
    sickCandidateDates (n : Rat) s = (List.range n).map (s + ·) := by
  simp [sickCandidateDates]

theorem map_range_headD (s n : Nat) :
    ((List.range (n + 1)).map (s + ·)).headD 0 = s := by
  rw [List.range_succ_eq_map]
  simp

theorem map_range_getLastD (s n : Nat) :
    ((List.range (n + 1)).map (s + ·)).getLastD 0 = s + n := by
  rw [List.range_succ, List.map_append]
  simp

/-- C6: the overlap finder returns exactly the candidates for which some
existing span's start equals the candidate, or its end equals it, or the
candidate lies strictly between start and end; a candidate is reported at most
once even when several spans match it. -/
theorem c6_findOverlappingDates_exact (targets : List Nat) (entries : List LeaveEntry) :
    (∀ t, t ∈ findOverlappingDates targets entries ↔
        t ∈ targets ∧ ∃ e ∈ entries,
          t = e.startDate ∨ t = e.endDate ∨ (e.startDate < t ∧ t < e.endDate)) ∧
    (∀ t, (findOverlappingDates targets entries).count t ≤ targets.count t) ∧
    (targets.Nodup → (findOverlappingDates targets entries).Nodup) := by
  refine ⟨fun t => ?_, fun t => ?_, fun h => ?_⟩
  · rw [mem_findOverlappingDates]
    constructor
    · rintro ⟨h1, e, he, ho⟩
      simp only [overlapsLeave, Bool.or_eq_true, beq_iff_eq, Bool.and_eq_true,
        decide_eq_true_eq] at ho
      exact ⟨h1, e, he, by tauto⟩
    · rintro ⟨h1, e, he, ho⟩
      refine ⟨h1, e, he, ?_⟩
      simp only [overlapsLeave, Bool.or_eq_true, beq_iff_eq, Bool.and_eq_true,
        decide_eq_true_eq]
      tauto
  · rw [findOverlappingDates_eq_filter]
    exact (List.filter_sublist targets).count_le t
  · rw [findOverlappingDates_eq_filter]
    exact h.filter _

/-- Witness for C6 at a concrete input: candidates 1 and 2 against the span
1..3; candidate 1 matches the span start, and the result has no duplicates. -/
theorem c6_witness :
    (1 ∈ findOverlappingDates [1, 2] [⟨1, 3, 1⟩]) ∧
    (findOverlappingDates [1, 2] [⟨1, 3, 1⟩]).Nodup := by
  refine ⟨((c6_findOverlappingDates_exact [1, 2] [⟨1, 3, 1⟩]).1 1).mpr ⟨by decide, ?_⟩,
    (c6_findOverlappingDates_exact [1, 2] [⟨1, 3, 1⟩]).2.2 (by decide)⟩
  exact ⟨⟨1, 3, 1⟩, by decide, by decide⟩

/-- C5: a successful addSickDays persists exactly one SickEntry spanning
exactly n consecutive calendar days from the start date (endDate = startDate +
n - 1), with the other stores untouched, for every working-day configuration;
moreover on an empty store it succeeds for every configuration, including one
with no working days at all. -/
theorem addSickDays_eq (c : Config) (store : Store) (n startDate : Nat) (hn : 0 < n) :
    addSickDays c store (n : Rat) startDate =
      (if findOverlappingDates ((List.range n).map (startDate + ·)) store.vacationEntries ≠ [] then
        (⟨store, .conflict .opposite⟩ : OpResult)
      else if findOverlappingDates ((List.range n).map (startDate + ·)) store.sickEntries ≠ [] then
        ⟨store, .conflict .self⟩
      else if timeEntryConflicts ((List.range n).map (startDate + ·)) store.timeEntries ≠ [] then
        ⟨store, .conflict .timeEntry⟩
      else
        ⟨{ store with sickEntries :=
            store.sickEntries ++ [⟨startDate, startDate + n - 1, (n : Rat)⟩] }, .added⟩) := by
  obtain ⟨m, rfl⟩ : ∃ m, n = m + 1 := ⟨n - 1, by omega⟩
  have hle : ¬ (((m + 1 : Nat) : Rat) ≤ 0) := by
    rw [not_le]
    exact_mod_cast Nat.succ_pos m
  have hint : (((m + 1 : Nat) : Rat)).isInt = true := by
    unfold Rat.isInt
    rw [Rat.den_natCast]
    rfl
  have hnum : (((m + 1 : Nat) : Rat)).num.toNat = m + 1 := by
    rw [Rat.num_natCast, Int.toNat_natCast]
  simp only [addSickDays, sickCandidateDates, hnum]
  rw [if_neg hle, hint]
  simp only [Bool.not_true, Bool.false_eq_true, if_false]
  rw [map_range_headD, map_range_getLastD]
  have hlast : startDate + m = startDate + (m + 1) - 1 := by omega
  rw [hlast]

/-- C5: a successful addSickDays persists exactly one SickEntry spanning
exactly n consecutive calendar days from the start date (endDate = startDate +
n - 1), with the other stores untouched, for every working-day configuration;
moreover on an empty store it succeeds for every configuration, including one
with no working days at all. -/
theorem c5_addSickDays_calendar_span (c : Config) (store : Store) (n startDate : Nat)
    (hn : 0 < n) :
    ((addSickDays c store (n : Rat) startDate).outcome = .added →
      (addSickDays c store (n : Rat) startDate).store =
        { store with sickEntries :=
            store.sickEntries ++ [⟨startDate, startDate + n - 1, (n : Rat)⟩] }) ∧
    (addSickDays c emptyStore (n : Rat) startDate).outcome = .added := by
  constructor
  · intro hout
    rw [addSickDays_eq c store n startDate hn] at hout ⊢
    by_cases h1 : findOverlappingDates ((List.range n).map (startDate + ·))
        store.vacationEntries ≠ []
    · rw [if_pos h1] at hout
      exact absurd hout (by simp)
    · rw [if_neg h1] at hout ⊢
      by_cases h2 : findOverlappingDates ((List.range n).map (startDate + ·))
          store.sickEntries ≠ []
      · rw [if_pos h2] at hout
        exact absurd hout (by simp)
      · rw [if_neg h2] at hout ⊢
        by_cases h3 : timeEntryConflicts ((List.range n).map (startDate + ·))
            store.timeEntries ≠ []
        · rw [if_pos h3] at hout
          exact absurd hout (by simp)
        · rw [if_neg h3]
  · rw [addSickDays_eq c emptyStore n startDate hn]
    have h1 : findOverlappingDates ((List.range n).map (startDate + ·))
        emptyStore.vacationEntries = [] := by
      rw [findOverlappingDates_eq_filter]
      simp [emptyStore]
    have h2 : findOverlappingDates ((List.range n).map (startDate + ·))
        emptyStore.sickEntries = [] := by
      rw [findOverlappingDates_eq_filter]
      simp [emptyStore]
    have h3 : timeEntryConflicts ((List.range n).map (startDate + ·))
        emptyStore.timeEntries = [] := by
      simp [timeEntryConflicts, emptyStore]
    simp [h1, h2, h3]

/-- Witness for C5: three sick days starting Thursday (day 3) cover days 3, 4
and 5 (Thursday, Friday, Saturday) even though 5 is a weekend day, and the
same request succeeds under the configuration with no working days. -/
theorem c5_witness :
    ((addSickDays mondayToFridayConfig emptyStore ((3 : Nat) : Rat) 3).outcome = .added →
      (addSickDays mondayToFridayConfig emptyStore ((3 : Nat) : Rat) 3).store =
        { emptyStore with sickEntries := emptyStore.sickEntries ++ [⟨3, 5, ((3 : Nat) : Rat)⟩] }) ∧
    (addSickDays noWorkingDaysConfig emptyStore ((3 : Nat) : Rat) 3).outcome = .added := by
  exact ⟨(c5_addSickDays_calendar_span mondayToFridayConfig emptyStore 3 3 (by decide)).1,
    (c5_addSickDays_calendar_span noWorkingDaysConfig emptyStore 3 3 (by decide)).2⟩

/-- C9 counterexample: for a paused session with pausedTime 5 ms and a
pauseStartTime of 2000 ms read at now = 1000 ms (pauseStartTime in the
future), the claim predicts a 0 contribution from the open-pause term, i.e. a
result of 5; the code returns 5 + (1000 - 2000) = -995. This matches the
repository's own unit test, which expects a non-positive value for a future
pauseStartTime. -/
theorem c9_counterexample :
    calculateCurrentPausedTimeMs ⟨0, 5, true, some (TimeStr.valid 2000)⟩ 1000 = -995 ∧
    calculateCurrentPausedTimeMs ⟨0, 5, true, some (TimeStr.valid 2000)⟩ 1000 ≠
      (⟨0, 5, true, some (TimeStr.valid 2000)⟩ : WorkSession).pausedTime := by
  have h : calculateCurrentPausedTimeMs ⟨0, 5, true, some (TimeStr.valid 2000)⟩ 1000 =
      5 + (1000 - 2000) := by
    simp [calculateCurrentPausedTimeMs, getPauseDurationMs]
  rw [h]
  norm_num

/-- C9 (amended): the current-paused-time computation returns pausedTime plus,
when the session is paused with a parsable pauseStartTime, now minus
pauseStartTime; the zero-contribution guard applies only to a missing or
unparsable pauseStartTime (or an unpaused session), and a pauseStartTime in
the future contributes negatively, pushing the result below pausedTime. -/
theorem c9_currentPausedTime_guard (s : WorkSession) (now t : Rat) :
    (s.isPaused = true → s.pauseStartTime = some (TimeStr.valid t) →
      calculateCurrentPausedTimeMs s now = s.pausedTime + (now - t)) ∧
    (s.pauseStartTime = some TimeStr.invalid ∨ s.pauseStartTime = none →
      calculateCurrentPausedTimeMs s now = s.pausedTime) ∧
    (s.isPaused = false → calculateCurrentPausedTimeMs s now = s.pausedTime) ∧
    (s.isPaused = true → s.pauseStartTime = some (TimeStr.valid t) → now < t →
      calculateCurrentPausedTimeMs s now < s.pausedTime) := by
  refine ⟨fun hp hps => ?_, fun h => ?_, fun hp => ?_, fun hp hps hlt => ?_⟩
  · simp [calculateCurrentPausedTimeMs, hp, hps, getPauseDurationMs]
  · rcases h with h | h <;>
      cases hip : s.isPaused <;>
      simp [calculateCurrentPausedTimeMs, h, hip, getPauseDurationMs]
  · simp [calculateCurrentPausedTimeMs, hp]
  · have heq : calculateCurrentPausedTimeMs s now = s.pausedTime + (now - t) := by
      simp [calculateCurrentPausedTimeMs, hp, hps, getPauseDurationMs]
    rw [heq]
    linarith

/-- Witness for C9 (amended) at a concrete paused session with a parsable past
pauseStartTime, an unparsable one, and a future one. -/
theorem c9_witness :
    calculateCurrentPausedTimeMs ⟨0, 5, true, some (TimeStr.valid 100)⟩ 1000 = 5 + (1000 - 100) ∧
    calculateCurrentPausedTimeMs ⟨0, 5, true, some TimeStr.invalid⟩ 1000 = 5 ∧
    calculateCurrentPausedTimeMs ⟨0, 5, true, some (TimeStr.valid 2000)⟩ 1000 < 5 := by
  refine ⟨(c9_currentPausedTime_guard ⟨0, 5, true, some (TimeStr.valid 100)⟩ 1000 100).1 rfl rfl,
    (c9_currentPausedTime_guard ⟨0, 5, true, some TimeStr.invalid⟩ 1000 0).2.1 (Or.inl rfl),
    (c9_currentPausedTime_guard ⟨0, 5, true, some (TimeStr.valid 2000)⟩ 1000 2000).2.2.2 rfl rfl
      (by decide)⟩

/-- C10: a successful addVacationRange persists exactly one VacationEntry whose
startDate and endDate are exactly the caller's requested bounds — even when
those boundary days are non-working — while its days field counts only the
working days inside the range; and whenever the range is valid, contains a
working day, and the three checks pass, the entry is persisted. -/
theorem c10_addVacationRange_bounds (c : Config) (store : Store) (s e : Nat) :
    ((addVacationRange c store s e).outcome = .added →
      (addVacationRange c store s e).store =
        { store with vacationEntries := store.vacationEntries ++
            [⟨s, e, ((calculateWorkingDaysInRange c s e).length : Rat)⟩] }) ∧
    (s ≤ e → calculateWorkingDaysInRange c s e ≠ [] →
      findOverlappingDates (calculateWorkingDaysInRange c s e) store.sickEntries = [] →
      findOverlappingDates (calculateWorkingDaysInRange c s e) store.vacationEntries = [] →
      timeEntryConflicts (calculateWorkingDaysInRange c s e) store.timeEntries = [] →
      (addVacationRange c store s e).outcome = .added) := by
  constructor
  · intro hout
    unfold addVacationRange at hout ⊢
    by_cases h0 : e < s
    · rw [if_pos h0] at hout
      exact absurd hout (by simp)
    · rw [if_neg h0] at hout ⊢
      by_cases h1 : calculateWorkingDaysInRange c s e = []
      · rw [if_pos h1] at hout
        exact absurd hout (by simp)
      · rw [if_neg h1] at hout ⊢
        by_cases h2 : findOverlappingDates (calculateWorkingDaysInRange c s e)
            store.sickEntries ≠ []
        · rw [if_pos h2] at hout
          exact absurd hout (by simp)
        · rw [if_neg h2] at hout ⊢
          by_cases h3 : findOverlappingDates (calculateWorkingDaysInRange c s e)
              store.vacationEntries ≠ []
          · rw [if_pos h3] at hout
            exact absurd hout (by simp)
          · rw [if_neg h3] at hout ⊢
            by_cases h4 : timeEntryConflicts (calculateWorkingDaysInRange c s e)
                store.timeEntries ≠ []
            · rw [if_pos h4] at hout
              exact absurd hout (by simp)
            · rw [if_neg h4]
  · intro h0 h1 h2 h3 h4
    unfold addVacationRange
    rw [if_neg (by omega : ¬ e < s), if_neg h1,
      if_neg (by simpa using h2), if_neg (by simpa using h3), if_neg (by simpa using h4)]

/-- Witness for C10: in a Monday-to-Friday configuration, the range Saturday
(day 5) to Monday (day 7) is persisted with the requested bounds although day
5 is non-working, counting 1 working day; and the range Thursday (3) to
Saturday (5) succeeds, ending on a non-working day. -/
theorem c10_witness :
    (addVacationRange mondayToFridayConfig emptyStore 5 7).store =
      { emptyStore with vacationEntries := emptyStore.vacationEntries ++
          [⟨5, 7, ((calculateWorkingDaysInRange mondayToFridayConfig 5 7).length : Rat)⟩] } ∧
    isWorkingDayFind mondayToFridayConfig 5 = false ∧
    (calculateWorkingDaysInRange mondayToFridayConfig 5 7).length = 1 ∧
    (addVacationRange mondayToFridayConfig emptyStore 3 5).outcome = .added := by
  refine ⟨(c10_addVacationRange_bounds mondayToFridayConfig emptyStore 5 7).1 (by decide),
    by decide, by decide,
    (c10_addVacationRange_bounds mondayToFridayConfig emptyStore 3 5).2 (by decide) (by decide)
      (by decide) (by decide) (by decide)⟩

/-- The shared shape of the three-stage check block: conflict kinds identify
the first failing check in the fixed order, and any conflict leaves the input
store untouched. -/
theorem checkChain_spec (store : Store) (dates : List Nat) (opp self : List LeaveEntry)
    (successStore : Store) :
    let res : OpResult :=
      if findOverlappingDates dates opp ≠ [] then ⟨store, .conflict .opposite⟩
      else if findOverlappingDates dates self ≠ [] then ⟨store, .conflict .self⟩
      else if timeEntryConflicts dates store.timeEntries ≠ [] then ⟨store, .conflict .timeEntry⟩
      else ⟨successStore, .added⟩
    (res.outcome ≠ .added → res.store = store) ∧
    (∀ k, res.outcome = .conflict k →
      (k = .opposite → findOverlappingDates dates opp ≠ []) ∧
      (k = .self → findOverlappingDates dates opp = [] ∧
        findOverlappingDates dates self ≠ []) ∧
      (k = .timeEntry → findOverlappingDates dates opp = [] ∧
        findOverlappingDates dates self = [] ∧
        timeEntryConflicts dates store.timeEntries ≠ [])) := by
  intro res
  by_cases h1 : findOverlappingDates dates opp ≠ []
  · have hres : res = ⟨store, .conflict .opposite⟩ := if_pos h1
    rw [hres]
    refine ⟨fun _ => rfl, fun k hk => ?_⟩
    simp only [OpResult.outcome, AddOutcome.conflict.injEq] at hk
    subst hk
    exact ⟨fun _ => h1, fun h => absurd h (by decide), fun h => absurd h (by decide)⟩
  · have h1' : findOverlappingDates dates opp = [] := not_not.mp h1
    by_cases h2 : findOverlappingDates dates self ≠ []
    · have hres : res = ⟨store, .conflict .self⟩ := by
        show (if _ then _ else _) = _
        rw [if_neg h1, if_pos h2]
      rw [hres]
      refine ⟨fun _ => rfl, fun k hk => ?_⟩
      simp only [OpResult.outcome, AddOutcome.conflict.injEq] at hk
      subst hk
      exact ⟨fun h => absurd h (by decide), fun _ => ⟨h1', h2⟩, fun h => absurd h (by decide)⟩
    · have h2' : findOverlappingDates dates self = [] := not_not.mp h2
      by_cases h3 : timeEntryConflicts dates store.timeEntries ≠ []
      · have hres : res = ⟨store, .conflict .timeEntry⟩ := by
          show (if _ then _ else _) = _
          rw [if_neg h1, if_neg h2, if_pos h3]
        rw [hres]
        refine ⟨fun _ => rfl, fun k hk => ?_⟩
        simp only [OpResult.outcome, AddOutcome.conflict.injEq] at hk
        subst hk
        exact ⟨fun h => absurd h (by decide), fun h => absurd h (by decide),
          fun _ => ⟨h1', h2', h3⟩⟩
      · have hres : res = ⟨successStore, .added⟩ := by
          show (if _ then _ else _) = _
          rw [if_neg h1, if_neg h2, if_neg h3]
        rw [hres]
        exact ⟨fun h => absurd rfl h, fun k hk => absurd hk (by simp)⟩

/-- addVacation runs the checks in the order sick, own vacation, time entries,
and every failing outcome leaves the store untouched. -/
theorem addVacation_order (c : Config) (store : Store) (days : Rat) (startDate : Nat) :
    ((addVacation c store days startDate).outcome ≠ .added →
      (addVacation c store days startDate).store = store) ∧
    (∀ k, (addVacation c store days startDate).outcome = .conflict k →
      (k = .opposite →
        findOverlappingDates (vacationCandidateDates c days startDate) store.sickEntries ≠ []) ∧
      (k = .self →
        findOverlappingDates (vacationCandidateDates c days startDate) store.sickEntries = [] ∧
        findOverlappingDates (vacationCandidateDates c days startDate)
          store.vacationEntries ≠ []) ∧
      (k = .timeEntry →
        findOverlappingDates (vacationCandidateDates c days startDate) store.sickEntries = [] ∧
        findOverlappingDates (vacationCandidateDates c days startDate)
          store.vacationEntries = [] ∧
        timeEntryConflicts (vacationCandidateDates c days startDate) store.timeEntries ≠ [])) := by
  unfold addVacation
  by_cases hd : days ≤ 0
  · rw [if_pos hd]
    exact ⟨fun _ => rfl, fun k hk => absurd hk (by simp)⟩
  · rw [if_neg hd]
    by_cases hi : (!days.isInt) = true
    · rw [if_pos hi]
      exact ⟨fun _ => rfl, fun k hk => absurd hk (by simp)⟩
    · rw [if_neg hi]
      rcases hf : findNextWorkingDay c startDate with _ | first
      · simp [hf]
      · simp only [hf]
        have hdates : vacationCandidateDates c days startDate =
            collectWorkingDays c first 366 days.num.toNat := by
          unfold vacationCandidateDates
          rw [hf]
        rw [hdates]
        by_cases hlen : (collectWorkingDays c first 366 days.num.toNat).length < days.num.toNat
        · rw [if_pos hlen]
          exact ⟨fun _ => rfl, fun k hk => absurd hk (by simp)⟩
        · rw [if_neg hlen]
          exact checkChain_spec store (collectWorkingDays c first 366 days.num.toNat)
            store.sickEntries store.vacationEntries _

/-- addVacationRange runs the checks in the order sick, own vacation, time
entries, and every failing outcome leaves the store untouched. -/
theorem addVacationRange_order (c : Config) (store : Store) (rs re : Nat) :
    ((addVacationRange c store rs re).outcome ≠ .added →
      (addVacationRange c store rs re).store = store) ∧
    (∀ k, (addVacationRange c store rs re).outcome = .conflict k →
      (k = .opposite →
        findOverlappingDates (calculateWorkingDaysInRange c rs re) store.sickEntries ≠ []) ∧
      (k = .self →
        findOverlappingDates (calculateWorkingDaysInRange c rs re) store.sickEntries = [] ∧
        findOverlappingDates (calculateWorkingDaysInRange c rs re) store.vacationEntries ≠ []) ∧
      (k = .timeEntry →
        findOverlappingDates (calculateWorkingDaysInRange c rs re) store.sickEntries = [] ∧
        findOverlappingDates (calculateWorkingDaysInRange c rs re) store.vacationEntries = [] ∧
        timeEntryConflicts (calculateWorkingDaysInRange c rs re) store.timeEntries ≠ [])) := by
  unfold addVacationRange
  by_cases h0 : re < rs
  · rw [if_pos h0]
    exact ⟨fun _ => rfl, fun k hk => absurd hk (by simp)⟩
  · rw [if_neg h0]
    by_cases h1 : calculateWorkingDaysInRange c rs re = []
    · rw [if_pos h1]
      exact ⟨fun _ => rfl, fun k hk => absurd hk (by simp)⟩
    · rw [if_neg h1]
      exact checkChain_spec store (calculateWorkingDaysInRange c rs re)
        store.sickEntries store.vacationEntries _

/-- addSickDays runs the checks in the order vacation, own sick, time entries,
and every failing outcome leaves the store untouched. -/
theorem addSickDays_order (c : Config) (store : Store) (days : Rat) (startDate : Nat) :
    ((addSickDays c store days startDate).outcome ≠ .added →
      (addSickDays c store days startDate).store = store) ∧
    (∀ k, (addSickDays c store days startDate).outcome = .conflict k →
      (k = .opposite →
        findOverlappingDates (sickCandidateDates days startDate) store.vacationEntries ≠ []) ∧
      (k = .self →
        findOverlappingDates (sickCandidateDates days startDate) store.vacationEntries = [] ∧
        findOverlappingDates (sickCandidateDates days startDate) store.sickEntries ≠ []) ∧
      (k = .timeEntry →
        findOverlappingDates (sickCandidateDates days startDate) store.vacationEntries = [] ∧
        findOverlappingDates (sickCandidateDates days startDate) store.sickEntries = [] ∧
        timeEntryConflicts (sickCandidateDates days startDate) store.timeEntries ≠ [])) := by
  unfold addSickDays
  by_cases hd : days ≤ 0
  · rw [if_pos hd]
    exact ⟨fun _ => rfl, fun k hk => absurd hk (by simp)⟩
  · rw [if_neg hd]
    by_cases hi : (!days.isInt) = true
    · rw [if_pos hi]
      exact ⟨fun _ => rfl, fun k hk => absurd hk (by simp)⟩
    · rw [if_neg hi]
      exact checkChain_spec store (sickCandidateDates days startDate)
        store.vacationEntries store.sickEntries _

/-- C2: for addVacation, addVacationRange and addSickDays the three overlap
checks run in the order opposite-category leave, same-category leave, time
entries — a reported conflict kind certifies that every earlier check passed —
and on any conflicting (indeed any failing) outcome every entry store is left
exactly as it was before the call. -/
theorem c2_check_order_and_noop (c : Config) (store : Store) (days : Rat)
    (startDate rs re : Nat) (sdays : Rat) (sstart : Nat) :
    ((addVacation c store days startDate).outcome ≠ .added →
      (addVacation c store days startDate).store = store) ∧
    ((addVacationRange c store rs re).outcome ≠ .added →
      (addVacationRange c store rs re).store = store) ∧
    ((addSickDays c store sdays sstart).outcome ≠ .added →
      (addSickDays c store sdays sstart).store = store) ∧
    (∀ k, (addVacation c store days startDate).outcome = .conflict k →
      (k = .opposite →
        findOverlappingDates (vacationCandidateDates c days startDate) store.sickEntries ≠ []) ∧
      (k = .self →
        findOverlappingDates (vacationCandidateDates c days startDate) store.sickEntries = [] ∧
        findOverlappingDates (vacationCandidateDates c days startDate)
          store.vacationEntries ≠ []) ∧
      (k = .timeEntry →
        findOverlappingDates (vacationCandidateDates c days startDate) store.sickEntries = [] ∧
        findOverlappingDates (vacationCandidateDates c days startDate)
          store.vacationEntries = [] ∧
        timeEntryConflicts (vacationCandidateDates c days startDate) store.timeEntries ≠ [])) ∧
    (∀ k, (addVacationRange c store rs re).outcome = .conflict k →
      (k = .opposite →
        findOverlappingDates (calculateWorkingDaysInRange c rs re) store.sickEntries ≠ []) ∧
      (k = .self →
        findOverlappingDates (calculateWorkingDaysInRange c rs re) store.sickEntries = [] ∧
        findOverlappingDates (calculateWorkingDaysInRange c rs re) store.vacationEntries ≠ []) ∧
      (k = .timeEntry →
        findOverlappingDates (calculateWorkingDaysInRange c rs re) store.sickEntries = [] ∧
        findOverlappingDates (calculateWorkingDaysInRange c rs re) store.vacationEntries = [] ∧
        timeEntryConflicts (calculateWorkingDaysInRange c rs re) store.timeEntries ≠ [])) ∧
    (∀ k, (addSickDays c store sdays sstart).outcome = .conflict k →
      (k = .opposite →
        findOverlappingDates (sickCandidateDates sdays sstart) store.vacationEntries ≠ []) ∧
      (k = .self →
        findOverlappingDates (sickCandidateDates sdays sstart) store.vacationEntries = [] ∧
        findOverlappingDates (sickCandidateDates sdays sstart) store.sickEntries ≠ []) ∧
      (k = .timeEntry →
        findOverlappingDates (sickCandidateDates sdays sstart) store.vacationEntries = [] ∧
        findOverlappingDates (sickCandidateDates sdays sstart) store.sickEntries = [] ∧
        timeEntryConflicts (sickCandidateDates sdays sstart) store.timeEntries ≠ [])) :=
  ⟨(addVacation_order c store days startDate).1,
    (addVacationRange_order c store rs re).1,
    (addSickDays_order c store sdays sstart).1,
    (addVacation_order c store days startDate).2,
    (addVacationRange_order c store rs re).2,
    (addSickDays_order c store sdays sstart).2⟩

/-- Witness for C2: with one sick day on day 3, addVacation for one day
starting day 3 reports the opposite-category conflict and leaves the store as
it was. -/
theorem c2_witness :
    findOverlappingDates (vacationCandidateDates mondayToFridayConfig 1 3)
      (⟨[], [], [⟨3, 3, 1⟩], []⟩ : Store).sickEntries ≠ [] ∧
    (addVacation mondayToFridayConfig ⟨[], [], [⟨3, 3, 1⟩], []⟩ 1 3).store =
      (⟨[], [], [⟨3, 3, 1⟩], []⟩ : Store) := by
  have h := c2_check_order_and_noop mondayToFridayConfig ⟨[], [], [⟨3, 3, 1⟩], []⟩ 1 3 0 0 1 0
  exact ⟨(h.2.2.2.1 ConflictKind.opposite (by decide)).1 rfl, h.1 (by decide)⟩

theorem collectWorkingDays_headD (c : Config) (cursor f m : Nat)
    (hw : isWorkingDayFind c cursor = true) :
    (collectWorkingDays c cursor (f + 1) (m + 1)).headD 0 = cursor := by
  simp [collectWorkingDays, hw]

theorem natCast_not_le_zero (n : Nat) (hn : 0 < n) : ¬ ((n : Rat) ≤ 0) := by
  rw [not_le]
  exact_mod_cast hn

theorem natCast_isInt_not (n : Nat) : ¬ ((!((n : Rat)).isInt) = true) := by
  have hint : ((n : Rat)).isInt = true := by
    unfold Rat.isInt
    rw [Rat.den_natCast]
    rfl
  simp [hint]

theorem natCast_num_toNat (n : Nat) : ((n : Rat)).num.toNat = n := by
  rw [Rat.num_natCast, Int.toNat_natCast]

theorem addVacation_eq_none (c : Config) (store : Store) (n startDate : Nat) (hn : 0 < n)
    (hf : findNextWorkingDay c startDate = none) :
    addVacation c store (n : Rat) startDate = ⟨store, .noWorkingDay⟩ := by
  unfold addVacation
  rw [if_neg (natCast_not_le_zero n hn), if_neg (natCast_isInt_not n), hf]

theorem addVacation_eq_some (c : Config) (store : Store) (n startDate first : Nat) (hn : 0 < n)
    (hf : findNextWorkingDay c startDate = some first) :
    addVacation c store (n : Rat) startDate =
      (if (collectWorkingDays c first 366 n).length < n then
        (⟨store, .notEnoughWorkingDays⟩ : OpResult)
      else if findOverlappingDates (collectWorkingDays c first 366 n) store.sickEntries ≠ [] then
        ⟨store, .conflict .opposite⟩
      else if findOverlappingDates (collectWorkingDays c first 366 n)
          store.vacationEntries ≠ [] then
        ⟨store, .conflict .self⟩
      else if timeEntryConflicts (collectWorkingDays c first 366 n) store.timeEntries ≠ [] then
        ⟨store, .conflict .timeEntry⟩
      else
        ⟨{ store with vacationEntries := store.vacationEntries ++
            [⟨(collectWorkingDays c first 366 n).headD 0,
              (collectWorkingDays c first 366 n).getLastD 0, (n : Rat)⟩] }, .added⟩) := by
  unfold addVacation
  rw [if_neg (natCast_not_le_zero n hn), if_neg (natCast_isInt_not n), natCast_num_toNat, hf]

/-- C4: a successful addVacation persists exactly one VacationEntry; its span
starts at the first working day on or after the requested start (within the
14-day lookahead) and contains exactly n working days per the configured
working-day set; when no starting working day exists within 14 days the
operation reports the error and persists nothing, and when n working days
cannot be collected within the 365-day cap it likewise persists nothing. -/
theorem c4_addVacation_working_days (c : Config) (store : Store) (n startDate : Nat)
    (hn : 0 < n) :
    ((addVacation c store (n : Rat) startDate).outcome = .added →
      ∃ e : LeaveEntry,
        (addVacation c store (n : Rat) startDate).store =
          { store with vacationEntries := store.vacationEntries ++ [e] } ∧
        e.days = (n : Rat) ∧
        isWorkingDayFind c e.startDate = true ∧
        startDate ≤ e.startDate ∧ e.startDate < startDate + 14 ∧
        (∀ x, startDate ≤ x → x < e.startDate → isWorkingDayFind c x = false) ∧
        ((dayRange e.startDate e.endDate).filter (isWorkingDayFind c)).length = n) ∧
    (findNextWorkingDay c startDate = none →
      (addVacation c store (n : Rat) startDate).outcome = .noWorkingDay ∧
      (addVacation c store (n : Rat) startDate).store = store) ∧
    (∀ first, findNextWorkingDay c startDate = some first →
      (collectWorkingDays c first 366 n).length < n →
      (addVacation c store (n : Rat) startDate).outcome = .notEnoughWorkingDays ∧
      (addVacation c store (n : Rat) startDate).store = store) := by
  refine ⟨?_, ?_, ?_⟩
  · intro hout
    rcases hf : findNextWorkingDay c startDate with _ | first
    · rw [addVacation_eq_none c store n startDate hn hf] at hout
      exact absurd hout (by simp)
    · rw [addVacation_eq_some c store n startDate first hn hf] at hout ⊢
      obtain ⟨hw, hge, hlt14, hmin⟩ := findNextWorkingDayGo_spec c 14 startDate first hf
      by_cases hlen : (collectWorkingDays c first 366 n).length < n
      · rw [if_pos hlen] at hout
        exact absurd hout (by simp)
      · rw [if_neg hlen] at hout ⊢
        by_cases h1 : findOverlappingDates (collectWorkingDays c first 366 n)
            store.sickEntries ≠ []
        · rw [if_pos h1] at hout
          exact absurd hout (by simp)
        · rw [if_neg h1] at hout ⊢
          by_cases h2 : findOverlappingDates (collectWorkingDays c first 366 n)
              store.vacationEntries ≠ []
          · rw [if_pos h2] at hout
            exact absurd hout (by simp)
          · rw [if_neg h2] at hout ⊢
            by_cases h3 : timeEntryConflicts (collectWorkingDays c first 366 n)
                store.timeEntries ≠ []
            · rw [if_pos h3] at hout
              exact absurd hout (by simp)
            · rw [if_neg h3]
              have hlen' : (collectWorkingDays c first 366 n).length = n :=
                le_antisymm (collectWorkingDays_length_le c 366 first n) (not_lt.mp hlen)
              obtain ⟨b, hb1, hb2, hb3⟩ := collectWorkingDays_spec c 366 first n hn hlen'
              obtain ⟨m, rfl⟩ : ∃ m, n = m + 1 := ⟨n - 1, by omega⟩
              have hhead : (collectWorkingDays c first 366 (m + 1)).headD 0 = first :=
                collectWorkingDays_headD c first 365 m hw
              have hlast : (collectWorkingDays c first 366 (m + 1)).getLastD 0 = b := by
                rw [List.getLastD_eq_getLast?, hb1]
                rfl
              refine ⟨⟨(collectWorkingDays c first 366 (m + 1)).headD 0,
                (collectWorkingDays c first 366 (m + 1)).getLastD 0, ((m + 1 : Nat) : Rat)⟩,
                rfl, rfl, ?_, ?_, ?_, ?_, ?_⟩
              · rw [hhead]
                exact hw
              · rw [hhead]
                exact hge
              · rw [hhead]
                exact hlt14
              · intro x hx1 hx2
                rw [hhead] at hx2
                exact hmin x hx1 hx2
              · rw [hhead, hlast, hb3]
                exact hlen'
  · intro hf
    rw [addVacation_eq_none c store n startDate hn hf]
    exact ⟨rfl, rfl⟩
  · intro first hf hshort
    rw [addVacation_eq_some c store n startDate first hn hf, if_pos hshort]
    exact ⟨rfl, rfl⟩

/-- Witness for C4: three vacation days requested from Thursday (day 3) in the
Monday-to-Friday configuration produce one entry spanning Thursday to the
following Monday with exactly three working days in the span. -/
theorem c4_witness :
    ∃ e : LeaveEntry,
      (addVacation mondayToFridayConfig emptyStore ((3 : Nat) : Rat) 3).store =
        { emptyStore with vacationEntries := emptyStore.vacationEntries ++ [e] } ∧
      e.days = ((3 : Nat) : Rat) ∧
      isWorkingDayFind mondayToFridayConfig e.startDate = true ∧
      3 ≤ e.startDate ∧ e.startDate < 3 + 14 ∧
      (∀ x, 3 ≤ x → x < e.startDate → isWorkingDayFind mondayToFridayConfig x = false) ∧
      ((dayRange e.startDate e.endDate).filter (isWorkingDayFind mondayToFridayConfig)).length =
        3 :=
  (c4_addVacation_working_days mondayToFridayConfig emptyStore 3 3 (by decide)).1 (by decide)

/-- The 37.5 hours over five working days configuration of the spec's concrete
pause-suggestion scenario. -/
def thirtySevenHalfConfig : Config :=
  { hoursPerWeek := 75 / 2, vacationDaysPerYear := 30,
    workingDays := [⟨0, true⟩, ⟨1, true⟩, ⟨2, true⟩, ⟨3, true⟩, ⟨4, true⟩, ⟨5, false⟩, ⟨6, false⟩],
    startDate := some 0 }

/-- C7: on stop, the suggested pause is max (0, floor (grossMinutes -
targetDailyMinutes)) with targetDailyMinutes = round (hoursPerWeek /
workingDaysCount * 60); the prompt fires exactly when the suggestion is
positive and strictly exceeds the tracked pause; a confirmed suggestion
replaces the tracked pause in the persisted TimeEntry and a declined one
leaves the tracked pause; and in the concrete 500-gross-minute session against
a 450-minute target the suggestion is 50 and accepting persists pauseTime 50. -/
theorem c7_pause_suggestion (c : Config) (store : Store) (s : WorkSession)
    (now : Rat) (applyPause : Bool) (hwd : 0 < workingDaysCount c) :
    let target := jsRound (c.hoursPerWeek / (workingDaysCount c : Rat) * 60)
    let gross := calculateWorkingTime (some s.startTime) (some now) 0 / 60000
    let tracked := calculateCurrentPausedTimeMs s now / 60000
    let suggested := max 0 ⌊gross - (target : Rat)⌋
    let r := stopTracking c store (some s) now applyPause
    getSuggestedPauseMinutesForSession c gross = suggested ∧
    (r.prompted = true ↔ 0 < suggested ∧ tracked < (suggested : Rat)) ∧
    r.store.timeEntries = store.timeEntries ++
      [⟨dayOfMs s.startTime, some s.startTime, some now,
        if r.prompted && applyPause then (suggested : Rat) else tracked⟩] ∧
    r.outcome = .stopped ∧ r.session = none ∧
    getSuggestedPauseMinutesForSession thirtySevenHalfConfig 500 = 50 ∧
    (stopTracking thirtySevenHalfConfig emptyStore (some ⟨28800000, 0, false, none⟩)
        58800000 true).store.timeEntries = [⟨0, some 28800000, some 58800000, 50⟩] := by
  intro target gross tracked suggested r
  have htarget : getRegularDailyMinutes c = target := by
    unfold getRegularDailyMinutes
    rw [if_neg (by omega)]
  have hsugg : getSuggestedPauseMinutesForSession c gross = suggested := by
    unfold getSuggestedPauseMinutesForSession
    rw [htarget]
  have hprompted : r.prompted =
      (decide (0 < getSuggestedPauseMinutesForSession c gross) &&
        decide (tracked < (getSuggestedPauseMinutesForSession c gross : Rat))) := rfl
  have hconc : getSuggestedPauseMinutesForSession thirtySevenHalfConfig 500 = 50 := by
    have hwd2 : workingDaysCount thirtySevenHalfConfig = 5 := by decide
    unfold getSuggestedPauseMinutesForSession getRegularDailyMinutes jsRound
    rw [hwd2]
    norm_num [thirtySevenHalfConfig]
  refine ⟨hsugg, ?_, ?_, rfl, rfl, hconc, ?_⟩
  · rw [hprompted, hsugg]
    simp
  · show store.timeEntries ++ [_] = store.timeEntries ++ [_]
    congr 2
    rw [hprompted, hsugg]
  · have hgross : calculateWorkingTime (some (28800000 : Rat)) (some 58800000) 0 / 60000 = 500 := by
      unfold calculateWorkingTime
      norm_num
    have htracked : calculateCurrentPausedTimeMs ⟨28800000, 0, false, none⟩ 58800000 / 60000
        = 0 := by
      simp [calculateCurrentPausedTimeMs]
    show emptyStore.timeEntries ++ [_] = _
    rw [emptyStore]
    simp only [List.nil_append]
    congr 1
    have hday : dayOfMs (28800000 : Rat) = 0 := by
      unfold dayOfMs
      rw [show ((28800000 : Rat) / 86400000) = 1 / 3 by norm_num]
      rw [show ⌊(1 / 3 : Rat)⌋ = 0 by norm_num]
      rfl
    show TimeEntry.mk _ _ _ _ = TimeEntry.mk 0 (some 28800000) (some 58800000) 50
    rw [hday]
    congr 1
    show (if _ && true then _ else _) = (50 : Rat)
    rw [Bool.and_true]
    have hp : (decide (0 < getSuggestedPauseMinutesForSession thirtySevenHalfConfig
        (calculateWorkingTime (some (28800000 : Rat)) (some 58800000) 0 / 60000)) &&
        decide (calculateCurrentPausedTimeMs ⟨28800000, 0, false, none⟩ 58800000 / 60000 <
          (getSuggestedPauseMinutesForSession thirtySevenHalfConfig
            (calculateWorkingTime (some (28800000 : Rat)) (some 58800000) 0 / 60000) : Rat)))
        = true := by
      rw [hgross, htracked, hconc]
      norm_num
    rw [hp, if_pos rfl, hgross, hconc]
    norm_num

/-- Witness for C7: stopping an unpaused 500-minute session under the
37.5h/5-day configuration with the prompt declined persists the tracked pause
(0 minutes), and the suggestion equals 50. -/
theorem c7_witness :
    getSuggestedPauseMinutesForSession thirtySevenHalfConfig
      (calculateWorkingTime (some (28800000 : Rat)) (some 58800000) 0 / 60000) =
      max 0 ⌊calculateWorkingTime (some (28800000 : Rat)) (some 58800000) 0 / 60000 -
        ((jsRound (thirtySevenHalfConfig.hoursPerWeek /
          (workingDaysCount thirtySevenHalfConfig : Rat) * 60) : Int) : Rat)⌋ ∧
    (stopTracking thirtySevenHalfConfig emptyStore (some ⟨28800000, 0, false, none⟩)
        58800000 true).store.timeEntries = [⟨0, some 28800000, some 58800000, 50⟩] := by
  have h := c7_pause_suggestion thirtySevenHalfConfig emptyStore ⟨28800000, 0, false, none⟩
    58800000 true (by decide)
  exact ⟨h.1, h.2.2.2.2.2.2⟩

/-- addTimeEntry either fails leaving the stores untouched, or appends exactly
one entry for a date that had none. -/
theorem addTimeEntry_cases (store : Store) (dateDay : Nat) (startMin endMin pauseMin : Rat)
    (todayDay : Nat) :
    ((addTimeEntry store dateDay startMin endMin pauseMin todayDay).store = store ∧
      (addTimeEntry store dateDay startMin endMin pauseMin todayDay).outcome ≠ .added) ∨
    ((addTimeEntry store dateDay startMin endMin pauseMin todayDay).store =
        { store with timeEntries := store.timeEntries ++
          [⟨dateDay, some ((dateDay : Rat) * 86400000 + startMin * 60000),
            some ((dateDay : Rat) * 86400000 + endMin * 60000), pauseMin⟩] } ∧
      (addTimeEntry store dateDay startMin endMin pauseMin todayDay).outcome = .added ∧
      store.timeEntries.any (fun e => e.date == dateDay) = false) := by
  unfold addTimeEntry
  by_cases h1 : pauseMin < 0
  · rw [if_pos h1]
    exact Or.inl ⟨rfl, by simp⟩
  · rw [if_neg h1]
    by_cases h2 : todayDay < dateDay
    · rw [if_pos h2]
      exact Or.inl ⟨rfl, by simp⟩
    · rw [if_neg h2]
      by_cases h3 : ¬ (dateDay : Rat) * 86400000 + startMin * 60000 <
          (dateDay : Rat) * 86400000 + endMin * 60000
      · rw [if_pos h3]
        exact Or.inl ⟨rfl, by simp⟩
      · rw [if_neg h3]
        by_cases h4 : 24 ≤ calculateWorkingTime
            (some ((dateDay : Rat) * 86400000 + startMin * 60000))
            (some ((dateDay : Rat) * 86400000 + endMin * 60000)) pauseMin / 3600000
        · rw [if_pos h4]
          exact Or.inl ⟨rfl, by simp⟩
        · rw [if_neg h4]
          by_cases h5 : calculateWorkingTime
              (some ((dateDay : Rat) * 86400000 + startMin * 60000))
              (some ((dateDay : Rat) * 86400000 + endMin * 60000)) pauseMin / 3600000 ≤ 0
          · rw [if_pos h5]
            exact Or.inl ⟨rfl, by simp⟩
          · rw [if_neg h5]
            by_cases h6 : store.timeEntries.any (fun e => e.date == dateDay) = true
            · rw [if_pos h6]
              exact Or.inl ⟨rfl, by simp⟩
            · rw [if_neg h6]
              by_cases h7 : store.vacationEntries.any (overlapsLeave dateDay) = true
              · rw [if_pos h7]
                exact Or.inl ⟨rfl, by simp⟩
              · rw [if_neg h7]
                by_cases h8 : store.sickEntries.any (overlapsLeave dateDay) = true
                · rw [if_pos h8]
                  exact Or.inl ⟨rfl, by simp⟩
                · rw [if_neg h8]
                  exact Or.inr ⟨rfl, rfl, Bool.not_eq_true _ ▸ Bool.of_not_eq_true h6⟩

theorem addVacation_timeEntries (c : Config) (store : Store) (days : Rat) (startDate : Nat) :
    (addVacation c store days startDate).store.timeEntries = store.timeEntries := by
  unfold addVacation
  repeat' first
    | rfl
    | split
    | simp only []

theorem addVacationRange_timeEntries (c : Config) (store : Store) (rs re : Nat) :
    (addVacationRange c store rs re).store.timeEntries = store.timeEntries := by
  unfold addVacationRange
  repeat' first
    | rfl
    | split
    | simp only []

theorem addSickDays_timeEntries (c : Config) (store : Store) (days : Rat) (startDate : Nat) :
    (addSickDays c store days startDate).store.timeEntries = store.timeEntries := by
  unfold addSickDays
  repeat' first
    | rfl
    | split
    | simp only []

/-- C3 counterexample: with a time entry already stored for day 0, starting a
session during day 0 succeeds (startTracking checks leave entries but never
time entries) and stopping it appends a second TimeEntry dated day 0 without
any failure, so an operation that creates a second time entry for an occupied
date does not fail. -/
theorem c3_counterexample :
    (startTracking ⟨[⟨0, some 0, some 3600000, 0⟩], [], [], []⟩ none 28800000).outcome =
      .started ∧
    (startTracking ⟨[⟨0, some 0, some 3600000, 0⟩], [], [], []⟩ none 28800000).session =
      some ⟨28800000, 0, false, none⟩ ∧
    (stopTracking mondayToFridayConfig ⟨[⟨0, some 0, some 3600000, 0⟩], [], [], []⟩
        (some ⟨28800000, 0, false, none⟩) 43200000 false).outcome = .stopped ∧
    ((stopTracking mondayToFridayConfig ⟨[⟨0, some 0, some 3600000, 0⟩], [], [], []⟩
        (some ⟨28800000, 0, false, none⟩) 43200000 false).store.timeEntries.map (·.date)) =
      [0, 0] := by
  have hday : dayOfMs (28800000 : Rat) = 0 := by
    unfold dayOfMs
    rw [show ((28800000 : Rat) / 86400000) = 1 / 3 by norm_num,
      show ⌊(1 / 3 : Rat)⌋ = 0 by norm_num]
    rfl
  refine ⟨?_, ?_, rfl, ?_⟩
  · unfold startTracking
    simp
  · unfold startTracking
    simp
  · obtain ⟨p, hp⟩ : ∃ p, (stopTracking mondayToFridayConfig
        ⟨[⟨0, some 0, some 3600000, 0⟩], [], [], []⟩
        (some ⟨28800000, 0, false, none⟩) 43200000 false).store.timeEntries =
          ([⟨0, some 0, some 3600000, 0⟩] : List TimeEntry) ++
            [⟨dayOfMs (28800000 : Rat), some 28800000, some 43200000, p⟩] := ⟨_, rfl⟩
    rw [hp]
    simp [hday]

/-- C3 (amended): the one-entry-per-date rule is enforced by manual time-entry
addition — when the target date already has a time entry, addTimeEntry fails
and every store is unchanged, and it preserves the at-most-one-entry-per-date
invariant — and leave additions never create time entries; stopping a tracked
session, however, appends its TimeEntry without consulting the existing
entries (see the counterexample). -/
theorem c3_one_entry_per_date (c : Config) (store : Store) (dateDay : Nat)
    (startMin endMin pauseMin : Rat) (todayDay : Nat) (days : Rat) (sd rs re : Nat)
    (sdays : Rat) (ss : Nat) :
    ((∃ e ∈ store.timeEntries, e.date = dateDay) →
      (addTimeEntry store dateDay startMin endMin pauseMin todayDay).outcome ≠ .added ∧
      (addTimeEntry store dateDay startMin endMin pauseMin todayDay).store = store) ∧
    (store.timeEntries.Pairwise (fun a b => a.date ≠ b.date) →
      (addTimeEntry store dateDay startMin endMin pauseMin todayDay).store.timeEntries.Pairwise
        (fun a b => a.date ≠ b.date)) ∧
    (addVacation c store days sd).store.timeEntries = store.timeEntries ∧
    (addVacationRange c store rs re).store.timeEntries = store.timeEntries ∧
    (addSickDays c store sdays ss).store.timeEntries = store.timeEntries := by
  refine ⟨?_, ?_, addVacation_timeEntries c store days sd,
    addVacationRange_timeEntries c store rs re, addSickDays_timeEntries c store sdays ss⟩
  · intro hex
    rcases addTimeEntry_cases store dateDay startMin endMin pauseMin todayDay with
      ⟨hs, ho⟩ | ⟨_, _, hany⟩
    · exact ⟨ho, hs⟩
    · rw [List.any_eq_false] at hany
      obtain ⟨e, he, hd⟩ := hex
      exact absurd (by simpa using hd) (hany e he)
  · intro hpw
    rcases addTimeEntry_cases store dateDay startMin endMin pauseMin todayDay with
      ⟨hs, _⟩ | ⟨hs, _, hany⟩
    · rw [hs]
      exact hpw
    · rw [hs]
      rw [List.any_eq_false] at hany
      rw [List.pairwise_append]
      refine ⟨hpw, List.pairwise_singleton _ _, ?_⟩
      intro a ha b hb
      rw [List.mem_singleton] at hb
      subst hb
      have := hany a ha
      simpa using this

/-- Witness for C3 (amended): adding a manual entry for day 0 against a store
that already holds an entry for day 0 fails and changes nothing, and a
conflict-free store keeps the invariant. -/
theorem c3_witness :
    (addTimeEntry ⟨[⟨0, some 0, some 3600000, 0⟩], [], [], []⟩ 0 60 120 0 5).outcome ≠ .added ∧
    (addTimeEntry ⟨[⟨0, some 0, some 3600000, 0⟩], [], [], []⟩ 0 60 120 0 5).store =
      ⟨[⟨0, some 0, some 3600000, 0⟩], [], [], []⟩ ∧
    (addTimeEntry ⟨[⟨0, some 0, some 3600000, 0⟩], [], [], []⟩ 1 60 120 0 5).store.timeEntries.Pairwise
      (fun a b => a.date ≠ b.date) := by
  have h0 := c3_one_entry_per_date mondayToFridayConfig ⟨[⟨0, some 0, some 3600000, 0⟩], [], [], []⟩
    0 60 120 0 5 1 0 0 0 1 0
  have h1 := c3_one_entry_per_date mondayToFridayConfig ⟨[⟨0, some 0, some 3600000, 0⟩], [], [], []⟩
    1 60 120 0 5 1 0 0 0 1 0
  have hex : ∃ e ∈ (⟨[⟨0, some 0, some 3600000, 0⟩], [], [], []⟩ : Store).timeEntries,
      e.date = 0 := ⟨⟨0, some 0, some 3600000, 0⟩, by simp⟩
  exact ⟨(h0.1 hex).1, (h0.1 hex).2, h1.2.1 (by simp)⟩

/-- C1: the overall summary's actual total equals the sum of working time over
closed time entries, plus totalVacationDays, totalSickDays and the working-
holiday count each at full daily hours; every counted working holiday is a
stored holiday date lying on a configured working weekday, between the
employment baseline and today, and on no date covered by a vacation or sick
span — so a date carrying both a holiday and other leave is credited exactly
once; the reported overtime equals actual minus expected and can be negative,
as the concrete undertime instance shows. -/
theorem c1_summary_totals (c : Config) (store : Store) (nowDay : Nat) :
    (calculateSummaryData c store nowDay).totalHoursWorked =
      sumClosedWorkingMs store.timeEntries +
        getTotalVacationDays store.vacationEntries * (calculateWorkingHoursPerDay c * 3600000) +
        getTotalSickDays store.sickEntries * (calculateWorkingHoursPerDay c * 3600000) +
        ((workingHolidayDates c store (employmentStartDay c store.timeEntries nowDay)
          nowDay).length : Rat) * (calculateWorkingHoursPerDay c * 3600000) ∧
    (∀ d ∈ workingHolidayDates c store (employmentStartDay c store.timeEntries nowDay) nowDay,
      isWorkingDayName c d = true ∧
      employmentStartDay c store.timeEntries nowDay ≤ d ∧ d ≤ nowDay ∧
      d ∉ leaveDays store.vacationEntries store.sickEntries ∧
      d ∈ store.holidayEntries.map (·.date)) ∧
    (calculateSummaryData c store nowDay).overtimeHours =
      (calculateSummaryData c store nowDay).totalHoursWorked -
        ((nowDay : Rat) - (employmentStartDay c store.timeEntries nowDay : Rat)) / 7 *
          c.hoursPerWeek * 3600000 ∧
    (calculateSummaryData mondayToFridayConfig emptyStore 7).overtimeHours < 0 := by
  refine ⟨rfl, ?_, ?_, ?_⟩
  · intro d hd
    unfold workingHolidayDates at hd
    rw [List.mem_filter] at hd
    obtain ⟨hd1, hd2⟩ := hd
    unfold getHolidayDates at hd1
    rw [List.mem_filter] at hd1
    obtain ⟨hmem, hrange⟩ := hd1
    rw [Bool.and_eq_true, decide_eq_true_eq, decide_eq_true_eq] at hrange
    rw [Bool.and_eq_true] at hd2
    obtain ⟨hwork, hnol⟩ := hd2
    refine ⟨hwork, hrange.1, hrange.2, ?_, hmem⟩
    intro hcontra
    rw [Bool.not_eq_true'] at hnol
    exact absurd hcontra (by simpa using hnol)
  · have h : (calculateSummaryData c store nowDay).overtimeHours =
        ((calculateSummaryData c store nowDay).totalHoursWorked / 3600000 -
          ((nowDay : Rat) - (employmentStartDay c store.timeEntries nowDay : Rat)) / 7 *
            c.hoursPerWeek) * 3600000 := rfl
    rw [h]
    ring
  · have h : (calculateSummaryData mondayToFridayConfig emptyStore 7).overtimeHours =
        ((0 : Rat) / 3600000 - ((7 : Nat) : Rat) / 7 * 40) * 3600000 := by
      show ((0 + 0 * _ + 0 * _ + ((List.length [] : Nat) : Rat) * _) / 3600000 -
        (((7 : Nat) : Rat) - ((0 : Nat) : Rat)) / 7 * 40) * 3600000 = _
      norm_num
    rw [h]
    norm_num

/-- Witness for C1: in a store holding one vacation day on day 1 and one
holiday on day 2 (a working Wednesday), the counted working holiday day 2 is a
stored holiday on a working weekday, inside the baseline range, and not a
leave-covered date. -/
theorem c1_witness :
    isWorkingDayName mondayToFridayConfig 2 = true ∧
    employmentStartDay mondayToFridayConfig
      (⟨[], [⟨1, 1, 1⟩], [], [⟨2, "Feiertag", "DE", "BY"⟩]⟩ : Store).timeEntries 7 ≤ 2 ∧
    2 ≤ 7 ∧
    2 ∉ leaveDays (⟨[], [⟨1, 1, 1⟩], [], [⟨2, "Feiertag", "DE", "BY"⟩]⟩ : Store).vacationEntries
      (⟨[], [⟨1, 1, 1⟩], [], [⟨2, "Feiertag", "DE", "BY"⟩]⟩ : Store).sickEntries ∧
    2 ∈ (⟨[], [⟨1, 1, 1⟩], [], [⟨2, "Feiertag", "DE", "BY"⟩]⟩ : Store).holidayEntries.map
      (·.date) :=
  (c1_summary_totals mondayToFridayConfig ⟨[], [⟨1, 1, 1⟩], [], [⟨2, "Feiertag", "DE", "BY"⟩]⟩
    7).2.1 2 (by decide)

theorem mem_insertHolidayBy (x y : HolidayEntry) (l : List HolidayEntry) :
    y ∈ insertHolidayBy x l ↔ y = x ∨ y ∈ l := by
  induction l with
  | nil => simp [insertHolidayBy]
  | cons z zs ih =>
    unfold insertHolidayBy
    by_cases h : holidayLE x z
    · rw [if_pos h]
      simp
    · rw [if_neg h]
      rw [List.mem_cons, ih, List.mem_cons]
      tauto

theorem mem_sortHolidays (y : HolidayEntry) (l : List HolidayEntry) :
    y ∈ sortHolidays l ↔ y ∈ l := by
  induction l with
  | nil => simp [sortHolidays]
  | cons z zs ih =>
    unfold sortHolidays
    rw [mem_insertHolidayBy, ih, List.mem_cons]

theorem dedupByDateName_subset (y : HolidayEntry) :
    ∀ (l : List HolidayEntry) (seen : List (Nat × String)),
      y ∈ dedupByDateName l seen → y ∈ l := by
  intro l
  induction l with
  | nil => intro seen h; simp [dedupByDateName] at h
  | cons z zs ih =>
    intro seen h
    unfold dedupByDateName at h
    by_cases hs : seen.contains (z.date, z.name)
    · rw [if_pos hs] at h
      exact List.mem_cons_of_mem z (ih seen h)
    · rw [if_neg hs] at h
      rw [List.mem_cons] at h
      rcases h with h | h
      · exact h ▸ List.mem_cons_self z zs
      · exact List.mem_cons_of_mem z (ih _ h)

theorem processRawHolidays_fields (country region : String) (raws : List RawHoliday) :
    ∀ e ∈ processRawHolidays country region raws, e.country = country ∧ e.region = region := by
  intro e he
  unfold processRawHolidays at he
  rw [mem_sortHolidays] at he
  have he2 := dedupByDateName_subset e _ [] he
  rw [List.mem_map] at he2
  obtain ⟨h, _, rfl⟩ := he2
  exact ⟨rfl, rfl⟩

/-- Every processed entry matches the tuple filter, given that its date lies
in the target year. -/
theorem processRawHolidays_matches (yearOf : Nat → Nat) (year : Nat)
    (country region : String) (raws : List RawHoliday)
    (hyear : ∀ e ∈ processRawHolidays country region raws, yearOf e.date = year) :
    ∀ e ∈ processRawHolidays country region raws,
      matchesHolidayTuple yearOf year country region e = true := by
  intro e he
  obtain ⟨hc, hr⟩ := processRawHolidays_fields country region raws e he
  unfold matchesHolidayTuple
  rw [hc, hr, hyear e he]
  simp

theorem store_eta_append_nil (store : Store) :
    { store with holidayEntries := store.holidayEntries ++ [] } = store := by
  cases store
  simp

/-- initHolidays without force is a strict no-op when matching entries exist. -/
theorem initHolidays_noop (yearOf : Nat → Nat) (store : Store) (year : Nat)
    (country region : String) (raws : List RawHoliday)
    (hex : store.holidayEntries.filter (matchesHolidayTuple yearOf year country region) ≠ []) :
    (initHolidays yearOf store year country region false raws).store = store := by
  unfold initHolidays
  rw [if_pos]
  rw [Bool.not_false, Bool.and_true, decide_eq_true_eq]
  exact List.length_pos.mpr hex

/-- C8: calling initHolidays twice without force yields the same store (hence
the same holiday-entry count) as calling it once, provided the processed
collaborator response carries dates of the requested year, as the year-prefix
filter of the code assumes; in particular when matching entries already exist
and force is false the call persists nothing. -/
theorem c8_initHolidays_idempotent (yearOf : Nat → Nat) (store : Store) (year : Nat)
    (country region : String) (raws : List RawHoliday)
    (hyear : ∀ e ∈ processRawHolidays country region raws, yearOf e.date = year) :
    (initHolidays yearOf (initHolidays yearOf store year country region false raws).store
        year country region false raws).store =
      (initHolidays yearOf store year country region false raws).store ∧
    (initHolidays yearOf (initHolidays yearOf store year country region false raws).store
        year country region false raws).store.holidayEntries.length =
      (initHolidays yearOf store year country region false raws).store.holidayEntries.length ∧
    (store.holidayEntries.filter (matchesHolidayTuple yearOf year country region) ≠ [] →
      (initHolidays yearOf store year country region false raws).store = store) := by
  have main : (initHolidays yearOf (initHolidays yearOf store year country region false
      raws).store year country region false raws).store =
      (initHolidays yearOf store year country region false raws).store := by
    by_cases hex : store.holidayEntries.filter
        (matchesHolidayTuple yearOf year country region) ≠ []
    · rw [initHolidays_noop yearOf store year country region raws hex]
      exact initHolidays_noop yearOf store year country region raws hex
    · rw [not_not] at hex
      have hfirst : (initHolidays yearOf store year country region false raws).store =
          (if raws = [] then store
            else { store with holidayEntries :=
              store.holidayEntries ++ processRawHolidays country region raws }) := by
        unfold initHolidays
        by_cases hraw : raws = []
        · simp [hex, hraw]
        · simp [hex, hraw]
      by_cases hraw : raws = []
      · rw [hfirst, if_pos hraw, hfirst, if_pos hraw]
      · rw [hfirst, if_neg hraw]
        by_cases hproc : processRawHolidays country region raws = []
        · have hsame : ({ store with holidayEntries :=
              store.holidayEntries ++ processRawHolidays country region raws } : Store) =
              store := by
            rw [hproc]
            exact store_eta_append_nil store
          rw [hsame, hfirst, if_neg hraw, hsame]
        · apply initHolidays_noop
          show ((store.holidayEntries ++ processRawHolidays country region raws).filter
            (matchesHolidayTuple yearOf year country region)) ≠ []
          rw [List.filter_append, hex, List.nil_append]
          rw [List.filter_eq_self.mpr (processRawHolidays_matches yearOf year country region
            raws hyear)]
          exact hproc
  exact ⟨main, by rw [main], fun hex => initHolidays_noop yearOf store year country region
    raws hex⟩

/-- Witness for C8 at a concrete input: one public-holiday definition for year
5 (with yearOf reading the year as date / 366); the second call leaves the
store of the first call unchanged, and the call on a store that already holds
the matching entry is a no-op. -/
theorem c8_witness :
    (initHolidays (· / 366) (initHolidays (· / 366) emptyStore 5 "DE" "BY" false
        [⟨1840, "X", "public", false⟩]).store 5 "DE" "BY" false
        [⟨1840, "X", "public", false⟩]).store =
      (initHolidays (· / 366) emptyStore 5 "DE" "BY" false
        [⟨1840, "X", "public", false⟩]).store ∧
    (initHolidays (· / 366) (⟨[], [], [], [⟨1840, "X", "DE", "BY"⟩]⟩ : Store) 5 "DE" "BY"
        false [⟨1840, "X", "public", false⟩]).store =
      (⟨[], [], [], [⟨1840, "X", "DE", "BY"⟩]⟩ : Store) := by
  refine ⟨(c8_initHolidays_idempotent (· / 366) emptyStore 5 "DE" "BY"
      [⟨1840, "X", "public", false⟩] (by decide)).1,
    (c8_initHolidays_idempotent (· / 366) (⟨[], [], [], [⟨1840, "X", "DE", "BY"⟩]⟩ : Store)
      5 "DE" "BY" [⟨1840, "X", "public", false⟩] (by decide)).2.2 (by decide)⟩

end Clockin
